import Mathlib

/-!
Verification of the `stress_relationships` repository: a shallow embedding of
the rosette-transform functions (`strain_gauge_rosette_0_45_90.py`), the
`StressTensor` class (`stress_tensor.py`) and the `TimeSeriesStressTensor`
class (`time_series_stress.py`), together with theorems settling the frozen
claims about them.  Real-number arithmetic models the floating-point
arithmetic of the code; `numpy.arctan2` is modelled by the complex argument.
-/

namespace StressRel

open Real

/-- Model of `numpy.arctan2 y x`: the argument of the complex number `x + y*i`,
which lies in `(-π, π]` and is `0` at the origin, exactly as numpy's
`arctan2` (ignoring signed zeros, which real numbers do not have). -/
noncomputable def arctan2 (y x : ℝ) : ℝ := Complex.arg ⟨x, y⟩

/-- Return record of `principal_strains` / `principal_stresses` (the Python
functions return a dict with these four keys). -/
structure PrinRes where
  principal1 : ℝ
  principal2 : ℝ
  max_shear : ℝ
  principal_angle : ℝ

/-- Embedding of `principal_strains(ex, ey, gamma_xy)` from
`strain_gauge_rosette_0_45_90.py`: `avg = (ex+ey)/2`,
`radius = sqrt(((ex-ey)/2)**2 + (gamma_xy/2)**2)`, principals `avg ± radius`,
`max_shear = radius * 2`, `principal_angle = 0.5 * arctan2(gamma_xy, ex-ey)`. -/
noncomputable def principal_strains (ex ey gamma_xy : ℝ) : PrinRes :=
  let avg := (ex + ey) / 2
  let radius := Real.sqrt (((ex - ey) / 2) ^ 2 + (gamma_xy / 2) ^ 2)
  { principal1 := avg + radius
    principal2 := avg - radius
    max_shear := radius * 2
    principal_angle := 0.5 * arctan2 gamma_xy (ex - ey) }

/-- Embedding of `principal_stresses(sx, sy, txy)` from
`strain_gauge_rosette_0_45_90.py`: `avg = (sx+sy)/2`,
`radius = sqrt(((sx-sy)/2)**2 + txy**2)`, principals `avg ± radius`,
`max_shear = radius` (no factor 2), `principal_angle = 0.5 * arctan2(txy, sx-sy)`. -/
noncomputable def principal_stresses (sx sy txy : ℝ) : PrinRes :=
  let avg := (sx + sy) / 2
  let radius := Real.sqrt (((sx - sy) / 2) ^ 2 + txy ^ 2)
  { principal1 := avg + radius
    principal2 := avg - radius
    max_shear := radius
    principal_angle := 0.5 * arctan2 txy (sx - sy) }

/-- Return record of `strain_calcs` (a dict with these seven keys in Python). -/
structure StrainCalcsRes where
  ex : ℝ
  ey : ℝ
  gamma_xy : ℝ
  principal1 : ℝ
  principal2 : ℝ
  max_shear : ℝ
  principal_angle : ℝ

/-- Embedding of `strain_calcs(e0, e45, e90)`: `ex = e0`, `ey = e90`,
`gamma_xy = 2*(e45 - (e0+e90)/2)`, then the fields of
`principal_strains ex ey gamma_xy`. -/
noncomputable def strain_calcs (e0 e45 e90 : ℝ) : StrainCalcsRes :=
  let ex := e0
  let ey := e90
  let gamma_xy := 2 * (e45 - (e0 + e90) / 2)
  let prin_data := principal_strains ex ey gamma_xy
  { ex := ex
    ey := ey
    gamma_xy := gamma_xy
    principal1 := prin_data.principal1
    principal2 := prin_data.principal2
    max_shear := prin_data.max_shear
    principal_angle := prin_data.principal_angle }

/-- Return record of `rotate_strain_field` / `rotate_stress_field` (the Python
functions return a 7-tuple: the rotated components followed by the principal
data of the rotated state). -/
structure RotFieldRes where
  comp_x : ℝ
  comp_y : ℝ
  comp_xy : ℝ
  principal1 : ℝ
  principal2 : ℝ
  max_shear : ℝ
  principal_angle : ℝ

/-- Embedding of `rotate_strain_field(ex, ey, gamma_xy, angle)`: the Mohr
rotation formulas for strain followed by `principal_strains` on the rotated
components. -/
noncomputable def rotate_strain_field (ex ey gamma_xy angle : ℝ) : RotFieldRes :=
  let ey_prime := (ex + ey) / 2 - (ex - ey) / 2 * Real.cos (2 * angle)
      - gamma_xy / 2 * Real.sin (2 * angle)
  let ex_prime := (ex + ey) / 2 + (ex - ey) / 2 * Real.cos (2 * angle)
      + gamma_xy / 2 * Real.sin (2 * angle)
  let gamma_xy_prime := -(ex - ey) * Real.sin (2 * angle) + gamma_xy * Real.cos (2 * angle)
  let prin_data := principal_strains ex_prime ey_prime gamma_xy_prime
  { comp_x := ex_prime
    comp_y := ey_prime
    comp_xy := gamma_xy_prime
    principal1 := prin_data.principal1
    principal2 := prin_data.principal2
    max_shear := prin_data.max_shear
    principal_angle := prin_data.principal_angle }

/-- Embedding of `rotate_stress_field(sx, sy, txy, angle)`: the Mohr rotation
formulas for stress followed by `principal_stresses` on the rotated
components. -/
noncomputable def rotate_stress_field (sx sy txy angle : ℝ) : RotFieldRes :=
  let sx_prime := (sx + sy) / 2 + (sx - sy) / 2 * Real.cos (2 * angle)
      + txy * Real.sin (2 * angle)
  let sy_prime := (sx + sy) / 2 - (sx - sy) / 2 * Real.cos (2 * angle)
      - txy * Real.sin (2 * angle)
  let txy_prime := -(sx - sy) / 2 * Real.sin (2 * angle) + txy * Real.cos (2 * angle)
  let prin_data := principal_stresses sx_prime sy_prime txy_prime
  { comp_x := sx_prime
    comp_y := sy_prime
    comp_xy := txy_prime
    principal1 := prin_data.principal1
    principal2 := prin_data.principal2
    max_shear := prin_data.max_shear
    principal_angle := prin_data.principal_angle }

/-- Helper: `arctan2 0 x = π` for negative `x` (argument of a negative real). -/
lemma arctan2_zero_of_neg {x : ℝ} (hx : x < 0) : arctan2 0 x = Real.pi := by
  have hcast : (⟨x, 0⟩ : ℂ) = (x : ℂ) := rfl
  rw [arctan2, hcast, Complex.arg_ofReal_of_neg hx]

/-- Helper: `arctan2` always lies in `(-π, π]`. -/
lemma arctan2_mem_Ioc (y x : ℝ) : arctan2 y x ∈ Set.Ioc (-Real.pi) Real.pi :=
  ⟨Complex.neg_pi_lt_arg _, Complex.arg_le_pi _⟩

/-- C2, counterexample: on the inputs e0=0.001, e45=0.0015, e90=0.002 the
principal angle returned by `strain_calcs` is not π/4: since gamma_xy = 0 and
ex - ey = -0.001 < 0, arctan2 gives π and the half-angle is π/2. -/
theorem C2_counterexample :
    (strain_calcs 0.001 0.0015 0.002).principal_angle ≠ Real.pi / 4 := by
  have h : (strain_calcs 0.001 0.0015 0.002).principal_angle = 0.5 * Real.pi := by
    show 0.5 * arctan2 (2 * (0.0015 - (0.001 + 0.002) / 2)) ((0.001 : ℝ) - 0.002)
        = 0.5 * Real.pi
    rw [show (2 * (0.0015 - (0.001 + 0.002) / 2) : ℝ) = 0 by norm_num,
      arctan2_zero_of_neg (show (0.001 : ℝ) - 0.002 < 0 by norm_num)]
  rw [h]
  intro hc
  have hpi := Real.pi_pos
  linarith

/-- C2, amended: for e0=0.001, e45=0.0015, e90=0.002, `strain_calcs` returns
ex=0.001, ey=0.002, gamma_xy=0, principal1=0.002, principal2=0.001,
max_shear=0.001 and principal_angle=π/2 (not π/4). -/
theorem C2_strain_rosette_scenario :
    (strain_calcs 0.001 0.0015 0.002).ex = 0.001 ∧
    (strain_calcs 0.001 0.0015 0.002).ey = 0.002 ∧
    (strain_calcs 0.001 0.0015 0.002).gamma_xy = 0 ∧
    (strain_calcs 0.001 0.0015 0.002).principal1 = 0.002 ∧
    (strain_calcs 0.001 0.0015 0.002).principal2 = 0.001 ∧
    (strain_calcs 0.001 0.0015 0.002).max_shear = 0.001 ∧
    (strain_calcs 0.001 0.0015 0.002).principal_angle = Real.pi / 2 := by
  have hs : Real.sqrt ((((0.001 : ℝ) - 0.002) / 2) ^ 2
      + (2 * (0.0015 - (0.001 + 0.002) / 2) / 2) ^ 2) = 0.0005 := by
    rw [show (((0.001 : ℝ) - 0.002) / 2) ^ 2
        + (2 * (0.0015 - (0.001 + 0.002) / 2) / 2) ^ 2 = (0.0005 : ℝ) ^ 2 by norm_num]
    exact Real.sqrt_sq (by norm_num)
  refine ⟨rfl, rfl, by norm_num [strain_calcs], ?_, ?_, ?_, ?_⟩
  · show ((0.001 : ℝ) + 0.002) / 2 + Real.sqrt ((((0.001 : ℝ) - 0.002) / 2) ^ 2
        + (2 * (0.0015 - (0.001 + 0.002) / 2) / 2) ^ 2) = 0.002
    rw [hs]; norm_num
  · show ((0.001 : ℝ) + 0.002) / 2 - Real.sqrt ((((0.001 : ℝ) - 0.002) / 2) ^ 2
        + (2 * (0.0015 - (0.001 + 0.002) / 2) / 2) ^ 2) = 0.001
    rw [hs]; norm_num
  · show Real.sqrt ((((0.001 : ℝ) - 0.002) / 2) ^ 2
        + (2 * (0.0015 - (0.001 + 0.002) / 2) / 2) ^ 2) * 2 = 0.001
    rw [hs]; norm_num
  · show 0.5 * arctan2 (2 * (0.0015 - (0.001 + 0.002) / 2)) ((0.001 : ℝ) - 0.002)
        = Real.pi / 2
    rw [show (2 * (0.0015 - (0.001 + 0.002) / 2) : ℝ) = 0 by norm_num,
      arctan2_zero_of_neg (show (0.001 : ℝ) - 0.002 < 0 by norm_num)]
    ring

/-- C3, counterexample: at (ex, ey, gamma_xy) = (0, 1, 0) the principal angle
returned by `principal_strains` is π/2, which is outside (-π/4, π/4]. -/
theorem C3_counterexample :
    (principal_strains 0 1 0).principal_angle ∉ Set.Ioc (-(Real.pi / 4)) (Real.pi / 4) := by
  have h : (principal_strains 0 1 0).principal_angle = 0.5 * Real.pi := by
    show 0.5 * arctan2 0 ((0 : ℝ) - 1) = 0.5 * Real.pi
    rw [arctan2_zero_of_neg (show (0 : ℝ) - 1 < 0 by norm_num)]
  rw [h]
  rintro ⟨-, h2⟩
  have hpi := Real.pi_pos
  linarith

/-- C3, amended: for every real input the principal angle returned by
`principal_strains` and by `principal_stresses` lies in (-π/2, π/2] — the
half of the (-π, π] range of arctan2, not (-π/4, π/4] as the spec states. -/
theorem C3_principal_angle_range (ex ey gamma_xy sx sy txy : ℝ) :
    (principal_strains ex ey gamma_xy).principal_angle
      ∈ Set.Ioc (-(Real.pi / 2)) (Real.pi / 2) ∧
    (principal_stresses sx sy txy).principal_angle
      ∈ Set.Ioc (-(Real.pi / 2)) (Real.pi / 2) := by
  obtain ⟨ha1, ha2⟩ := arctan2_mem_Ioc gamma_xy (ex - ey)
  obtain ⟨hb1, hb2⟩ := arctan2_mem_Ioc txy (sx - sy)
  refine ⟨⟨?_, ?_⟩, ?_, ?_⟩
  · show -(Real.pi / 2) < 0.5 * arctan2 gamma_xy (ex - ey); linarith
  · show 0.5 * arctan2 gamma_xy (ex - ey) ≤ Real.pi / 2; linarith
  · show -(Real.pi / 2) < 0.5 * arctan2 txy (sx - sy); linarith
  · show 0.5 * arctan2 txy (sx - sy) ≤ Real.pi / 2; linarith

/-- C4: the principal1, principal2 and max_shear values returned by
`rotate_strain_field` (computed from the rotated components) equal those of
`principal_strains` on the original components, exactly; likewise for
`rotate_stress_field` versus `principal_stresses`. -/
theorem C4_rotation_invariance (ex ey gamma_xy sx sy txy angle : ℝ) :
    ((rotate_strain_field ex ey gamma_xy angle).principal1
        = (principal_strains ex ey gamma_xy).principal1 ∧
      (rotate_strain_field ex ey gamma_xy angle).principal2
        = (principal_strains ex ey gamma_xy).principal2 ∧
      (rotate_strain_field ex ey gamma_xy angle).max_shear
        = (principal_strains ex ey gamma_xy).max_shear) ∧
    ((rotate_stress_field sx sy txy angle).principal1
        = (principal_stresses sx sy txy).principal1 ∧
      (rotate_stress_field sx sy txy angle).principal2
        = (principal_stresses sx sy txy).principal2 ∧
      (rotate_stress_field sx sy txy angle).max_shear
        = (principal_stresses sx sy txy).max_shear) := by
  have hpyth := Real.sin_sq_add_cos_sq (2 * angle)
  have hstrain : Real.sqrt
      (((((ex + ey) / 2 + (ex - ey) / 2 * Real.cos (2 * angle)
            + gamma_xy / 2 * Real.sin (2 * angle))
          - ((ex + ey) / 2 - (ex - ey) / 2 * Real.cos (2 * angle)
            - gamma_xy / 2 * Real.sin (2 * angle))) / 2) ^ 2
        + ((-(ex - ey) * Real.sin (2 * angle) + gamma_xy * Real.cos (2 * angle)) / 2) ^ 2)
      = Real.sqrt (((ex - ey) / 2) ^ 2 + (gamma_xy / 2) ^ 2) := by
    congr 1
    linear_combination (((ex - ey) / 2) ^ 2 + (gamma_xy / 2) ^ 2) * hpyth
  have hstress : Real.sqrt
      (((((sx + sy) / 2 + (sx - sy) / 2 * Real.cos (2 * angle)
            + txy * Real.sin (2 * angle))
          - ((sx + sy) / 2 - (sx - sy) / 2 * Real.cos (2 * angle)
            - txy * Real.sin (2 * angle))) / 2) ^ 2
        + (-(sx - sy) / 2 * Real.sin (2 * angle) + txy * Real.cos (2 * angle)) ^ 2)
      = Real.sqrt (((sx - sy) / 2) ^ 2 + txy ^ 2) := by
    congr 1
    linear_combination (((sx - sy) / 2) ^ 2 + txy ^ 2) * hpyth
  refine ⟨⟨?_, ?_, ?_⟩, ?_, ?_, ?_⟩
  · show (((ex + ey) / 2 + (ex - ey) / 2 * Real.cos (2 * angle)
          + gamma_xy / 2 * Real.sin (2 * angle))
        + ((ex + ey) / 2 - (ex - ey) / 2 * Real.cos (2 * angle)
          - gamma_xy / 2 * Real.sin (2 * angle))) / 2
      + Real.sqrt
        (((((ex + ey) / 2 + (ex - ey) / 2 * Real.cos (2 * angle)
              + gamma_xy / 2 * Real.sin (2 * angle))
            - ((ex + ey) / 2 - (ex - ey) / 2 * Real.cos (2 * angle)
              - gamma_xy / 2 * Real.sin (2 * angle))) / 2) ^ 2
          + ((-(ex - ey) * Real.sin (2 * angle) + gamma_xy * Real.cos (2 * angle)) / 2) ^ 2)
      = (ex + ey) / 2 + Real.sqrt (((ex - ey) / 2) ^ 2 + (gamma_xy / 2) ^ 2)
    rw [hstrain]; ring
  · show (((ex + ey) / 2 + (ex - ey) / 2 * Real.cos (2 * angle)
          + gamma_xy / 2 * Real.sin (2 * angle))
        + ((ex + ey) / 2 - (ex - ey) / 2 * Real.cos (2 * angle)
          - gamma_xy / 2 * Real.sin (2 * angle))) / 2
      - Real.sqrt
        (((((ex + ey) / 2 + (ex - ey) / 2 * Real.cos (2 * angle)
              + gamma_xy / 2 * Real.sin (2 * angle))
            - ((ex + ey) / 2 - (ex - ey) / 2 * Real.cos (2 * angle)
              - gamma_xy / 2 * Real.sin (2 * angle))) / 2) ^ 2
          + ((-(ex - ey) * Real.sin (2 * angle) + gamma_xy * Real.cos (2 * angle)) / 2) ^ 2)
      = (ex + ey) / 2 - Real.sqrt (((ex - ey) / 2) ^ 2 + (gamma_xy / 2) ^ 2)
    rw [hstrain]; ring
  · show Real.sqrt
        (((((ex + ey) / 2 + (ex - ey) / 2 * Real.cos (2 * angle)
              + gamma_xy / 2 * Real.sin (2 * angle))
            - ((ex + ey) / 2 - (ex - ey) / 2 * Real.cos (2 * angle)
              - gamma_xy / 2 * Real.sin (2 * angle))) / 2) ^ 2
          + ((-(ex - ey) * Real.sin (2 * angle) + gamma_xy * Real.cos (2 * angle)) / 2) ^ 2) * 2
      = Real.sqrt (((ex - ey) / 2) ^ 2 + (gamma_xy / 2) ^ 2) * 2
    rw [hstrain]
  · show (((sx + sy) / 2 + (sx - sy) / 2 * Real.cos (2 * angle)
          + txy * Real.sin (2 * angle))
        + ((sx + sy) / 2 - (sx - sy) / 2 * Real.cos (2 * angle)
          - txy * Real.sin (2 * angle))) / 2
      + Real.sqrt
        (((((sx + sy) / 2 + (sx - sy) / 2 * Real.cos (2 * angle)
              + txy * Real.sin (2 * angle))
            - ((sx + sy) / 2 - (sx - sy) / 2 * Real.cos (2 * angle)
              - txy * Real.sin (2 * angle))) / 2) ^ 2
          + (-(sx - sy) / 2 * Real.sin (2 * angle) + txy * Real.cos (2 * angle)) ^ 2)
      = (sx + sy) / 2 + Real.sqrt (((sx - sy) / 2) ^ 2 + txy ^ 2)
    rw [hstress]; ring
  · show (((sx + sy) / 2 + (sx - sy) / 2 * Real.cos (2 * angle)
          + txy * Real.sin (2 * angle))
        + ((sx + sy) / 2 - (sx - sy) / 2 * Real.cos (2 * angle)
          - txy * Real.sin (2 * angle))) / 2
      - Real.sqrt
        (((((sx + sy) / 2 + (sx - sy) / 2 * Real.cos (2 * angle)
              + txy * Real.sin (2 * angle))
            - ((sx + sy) / 2 - (sx - sy) / 2 * Real.cos (2 * angle)
              - txy * Real.sin (2 * angle))) / 2) ^ 2
          + (-(sx - sy) / 2 * Real.sin (2 * angle) + txy * Real.cos (2 * angle)) ^ 2)
      = (sx + sy) / 2 - Real.sqrt (((sx - sy) / 2) ^ 2 + txy ^ 2)
    rw [hstress]; ring
  · show Real.sqrt
        (((((sx + sy) / 2 + (sx - sy) / 2 * Real.cos (2 * angle)
              + txy * Real.sin (2 * angle))
            - ((sx + sy) / 2 - (sx - sy) / 2 * Real.cos (2 * angle)
              - txy * Real.sin (2 * angle))) / 2) ^ 2
          + (-(sx - sy) / 2 * Real.sin (2 * angle) + txy * Real.cos (2 * angle)) ^ 2)
      = Real.sqrt (((sx - sy) / 2) ^ 2 + txy ^ 2)
    rw [hstress]

/-! The `StressTensor` class of `stress_tensor.py`. -/

/-- 3×3 real matrices, the type of `StressTensor.components` in the ordinary
cases. -/
abbrev Mat3 := Matrix (Fin 3) (Fin 3) ℝ

/-- Arranging six values `[xx, yy, zz, xy, yz, xz]` into the 3×3 pattern
`[[xx, xy, xz], [xy, yy, yz], [xz, yz, zz]]`, as in the vector branch of
`StressTensor.__init__` (polymorphic because the branch also fires on a
6-row 2-D array, whose entries are rows). -/
def sixToMat {α : Type*} (v : Fin 6 → α) : Matrix (Fin 3) (Fin 3) α :=
  !![v 0, v 3, v 5; v 3, v 1, v 4; v 5, v 4, v 2]

/-- Construction of a `StressTensor` components matrix from a six-vector. -/
def ofVec6 (v : Fin 6 → ℝ) : Mat3 := sixToMat v

/-- Python exception values raised by the repository; in Python `KeyError`
is a subclass of `LookupError`, and `ValueError` plays the role the spec
calls `ConstructionError`. -/
inductive PyErr where
  | valueError (msg : String)
  | typeError (msg : String)
  | keyError (msg : String)
deriving DecidableEq

/-- A numpy-style rectangular array argument: one-dimensional with `n`
entries, or two-dimensional with `m` rows of `k` entries (Python's `len` of
a 2-D array is its number of rows `m`). -/
inductive NpArr where
  | d1 (n : ℕ) (v : Fin n → ℝ)
  | d2 (m k : ℕ) (a : Fin m → Fin k → ℝ)

/-- An argument to `StressTensor.__init__`: a list/ndarray, or any other
object (for which the `isinstance` check fails). -/
inductive NpObj where
  | array (a : NpArr)
  | nonArray

/-- The `components` value built by a successful `StressTensor.__init__`: a
3×3 matrix of scalars in the ordinary cases, or a 3×3 arrangement of
length-`k` rows (numpy shape `(3, 3, k)`) when a 6-row two-dimensional input
is unpacked by the vector branch. -/
inductive TensorComponents where
  | scalars (m : Mat3)
  | rows (k : ℕ) (m : Matrix (Fin 3) (Fin 3) (Fin k → ℝ))

/-- Embedding of `StressTensor.__init__`: a non-array input raises
`TypeError`; an array of `len` 6 is unpacked as `[xx, yy, zz, xy, yz, xz]`
and mirrored into a symmetric 3×3 arrangement (whatever the entries are); a
`(3, 3)` array is stored as is (no symmetry check); any other shape raises
`ValueError("Components must be either a 6-element vector or 3x3 matrix")`. -/
def stressTensorInit : NpObj → Except PyErr TensorComponents
  | .nonArray => .error (.typeError "Components must be list or numpy array")
  | .array (.d1 n v) =>
      if h : n = 6 then
        .ok (.scalars (ofVec6 fun i => v (Fin.cast h.symm i)))
      else
        .error (.valueError "Components must be either a 6-element vector or 3x3 matrix")
  | .array (.d2 m k a) =>
      if h : m = 6 then
        .ok (.rows k (sixToMat fun i => a (Fin.cast h.symm i)))
      else if h3 : m = 3 ∧ k = 3 then
        .ok (.scalars (Matrix.of fun i j => a (Fin.cast h3.1.symm i) (Fin.cast h3.2.symm j)))
      else
        .error (.valueError "Components must be either a 6-element vector or 3x3 matrix")

/-- Embedding of the `von_mises` property of `StressTensor`. -/
noncomputable def von_mises (s : Mat3) : ℝ :=
  Real.sqrt (0.5 * ((s 0 0 - s 1 1) ^ 2 + (s 1 1 - s 2 2) ^ 2 + (s 2 2 - s 0 0) ^ 2
    + 6 * ((s 0 1) ^ 2 + (s 1 2) ^ 2 + (s 0 2) ^ 2)))

/-- The hydrostatic stress `(s[0,0] + s[1,1] + s[2,2]) / 3` used by the
signed variants. -/
noncomputable def hydrostatic (s : Mat3) : ℝ := (s 0 0 + s 1 1 + s 2 2) / 3

/-- Embedding of the `signed_von_mises` property:
`np.sign(hydrostatic) * von_mises`. -/
noncomputable def signed_von_mises (s : Mat3) : ℝ :=
  Real.sign (hydrostatic s) * von_mises s

/-- Result of a call to a rotation method: the receiver's components after
the call, the returned tensor's components, and whether the returned object
is the receiver itself (`inplace=True`) or a freshly constructed instance. -/
structure RotateRes where
  receiver : Mat3
  result : Mat3
  same_instance : Bool

/-- Embedding of `StressTensor.rotate_by_matrix(rotation_matrix, inplace)`:
computes `R @ components @ R.T`; with `inplace=True` it overwrites the
receiver's components and returns the receiver, otherwise it leaves the
receiver unchanged and returns a new independent `StressTensor` built from
the rotated components. -/
def rotate_by_matrix (s r : Mat3) (inplace : Bool) : RotateRes :=
  let rotated := r * s * r.transpose
  if inplace then ⟨rotated, rotated, true⟩ else ⟨s, rotated, false⟩

/-- The elementary rotation about x built by `rotate_by_euler_angles`. -/
noncomputable def eulerRx (t : ℝ) : Mat3 :=
  !![1, 0, 0; 0, Real.cos t, -Real.sin t; 0, Real.sin t, Real.cos t]

/-- The elementary rotation about y built by `rotate_by_euler_angles`. -/
noncomputable def eulerRy (t : ℝ) : Mat3 :=
  !![Real.cos t, 0, Real.sin t; 0, 1, 0; -Real.sin t, 0, Real.cos t]

/-- The elementary rotation about z built by `rotate_by_euler_angles`. -/
noncomputable def eulerRz (t : ℝ) : Mat3 :=
  !![Real.cos t, -Real.sin t, 0; Real.sin t, Real.cos t, 0; 0, 0, 1]

/-- Embedding of `StressTensor.rotate_by_euler_angles(angles, inplace)`:
combines `R = Rz @ Ry @ Rx` and applies the congruence transform
`R @ components @ R.T`, with the same `inplace` semantics as
`rotate_by_matrix`. -/
noncomputable def rotate_by_euler_angles (s : Mat3) (tx ty tz : ℝ) (inplace : Bool) :
    RotateRes :=
  let R := eulerRz tz * eulerRy ty * eulerRx tx
  let rotated := R * s * R.transpose
  if inplace then ⟨rotated, rotated, true⟩ else ⟨s, rotated, false⟩

/-- Helper: the congruence transform preserves symmetry of the middle
factor, for any (not necessarily orthonormal) matrix `R`. -/
lemma congruence_transpose {M : Mat3} (R : Mat3) (hM : M.transpose = M) :
    (R * M * R.transpose).transpose = R * M * R.transpose := by
  rw [Matrix.transpose_mul, Matrix.transpose_mul, Matrix.transpose_transpose, hM,
    ← Matrix.mul_assoc]

/-- Helper: a components matrix built from a six-vector is symmetric. -/
lemma ofVec6_transpose (v : Fin 6 → ℝ) : (ofVec6 v).transpose = ofVec6 v := by
  ext i j
  fin_cases i <;> fin_cases j <;> simp [ofVec6, sixToMat, Matrix.transpose_apply]

/-- A concrete non-symmetric 3×3 matrix used as a constructor input. -/
def nonSymInput : Mat3 := !![0, 1, 0; 0, 0, 0; 0, 0, 0]

/-- C1, counterexample: constructing a `StressTensor` from the non-symmetric
3×3 matrix `[[0,1,0],[0,0,0],[0,0,0]]` succeeds and stores it unchanged, so
its components violate σ_01 = σ_10: the matrix branch of the constructor
checks only the shape, never symmetry. -/
theorem C1_counterexample :
    stressTensorInit (.array (.d2 3 3 nonSymInput)) = .ok (.scalars nonSymInput) ∧
    nonSymInput 0 1 ≠ nonSymInput 1 0 := by
  refine ⟨rfl, ?_⟩
  simp [nonSymInput]

/-- C1, amended: every components matrix built from a six-vector is
symmetric, and both rotation operations preserve symmetry of a symmetric
tensor (receiver and returned tensor alike, for both `inplace` modes);
construction from a 3×3 matrix merely stores the matrix, so it preserves
symmetry only when the input matrix is itself symmetric. -/
theorem C1_symmetry_preservation (v : Fin 6 → ℝ) (M R : Mat3) (tx ty tz : ℝ)
    (inplace : Bool) (hM : M.transpose = M) :
    (ofVec6 v).transpose = ofVec6 v ∧
    ((rotate_by_matrix M R inplace).receiver.transpose
        = (rotate_by_matrix M R inplace).receiver ∧
      (rotate_by_matrix M R inplace).result.transpose
        = (rotate_by_matrix M R inplace).result) ∧
    ((rotate_by_euler_angles M tx ty tz inplace).receiver.transpose
        = (rotate_by_euler_angles M tx ty tz inplace).receiver ∧
      (rotate_by_euler_angles M tx ty tz inplace).result.transpose
        = (rotate_by_euler_angles M tx ty tz inplace).result) := by
  refine ⟨ofVec6_transpose v, ?_, ?_⟩
  · cases inplace
    · exact ⟨hM, congruence_transpose R hM⟩
    · exact ⟨congruence_transpose R hM, congruence_transpose R hM⟩
  · cases inplace
    · exact ⟨hM, congruence_transpose (eulerRz tz * eulerRy ty * eulerRx tx) hM⟩
    · exact ⟨congruence_transpose (eulerRz tz * eulerRy ty * eulerRx tx) hM,
        congruence_transpose (eulerRz tz * eulerRy ty * eulerRx tx) hM⟩

/-- C1, witness: the amended symmetry theorem applied to the identity matrix
and a concrete six-vector. -/
theorem C1_symmetry_witness :
    ((1 : Mat3).transpose = 1) ∧
    ((ofVec6 ![1, 2, 3, 4, 5, 6]).transpose = ofVec6 ![1, 2, 3, 4, 5, 6] ∧
      ((rotate_by_matrix 1 1 true).receiver.transpose
          = (rotate_by_matrix 1 1 true).receiver ∧
        (rotate_by_matrix 1 1 true).result.transpose
          = (rotate_by_matrix 1 1 true).result) ∧
      ((rotate_by_euler_angles 1 0 0 0 true).receiver.transpose
          = (rotate_by_euler_angles 1 0 0 0 true).receiver ∧
        (rotate_by_euler_angles 1 0 0 0 true).result.transpose
          = (rotate_by_euler_angles 1 0 0 0 true).result)) :=
  ⟨Matrix.transpose_one,
    C1_symmetry_preservation ![1, 2, 3, 4, 5, 6] 1 1 0 0 0 true Matrix.transpose_one⟩

/-- A concrete 6×2 two-dimensional constructor input. -/
noncomputable def sixRowInput : Fin 6 → Fin 2 → ℝ := fun i j => (i : ℝ) + (j : ℝ)

/-- C7, counterexample: a 6×2 two-dimensional array has a shape that is
neither a 6-element vector nor a 3×3 matrix, yet construction succeeds:
`len` of the array is 6, so the vector branch fires and mirrors the six rows
into a `(3, 3, 2)` components array — no error is raised. -/
theorem C7_counterexample :
    stressTensorInit (.array (.d2 6 2 sixRowInput))
      = .ok (.rows 2 (sixToMat fun i => sixRowInput i)) := rfl

/-- C7, amended: construction fails with
`ValueError("Components must be either a 6-element vector or 3x3 matrix")`
for every 1-D input whose length is not 6 (in particular a 5-element
vector) and for every 2-D input that has neither 6 rows nor shape (3, 3);
a non-array input fails with a `TypeError`; on failure no components value
is produced (the result is the error alone).  Length-6 inputs, however, are
accepted whatever their element shape. -/
theorem C7_construction_error (n : ℕ) (v : Fin n → ℝ) (m k : ℕ) (a : Fin m → Fin k → ℝ)
    (hn : n ≠ 6) (hm : m ≠ 6) (hmk : ¬(m = 3 ∧ k = 3)) :
    stressTensorInit (.array (.d1 n v))
      = .error (.valueError "Components must be either a 6-element vector or 3x3 matrix") ∧
    stressTensorInit (.array (.d2 m k a))
      = .error (.valueError "Components must be either a 6-element vector or 3x3 matrix") ∧
    stressTensorInit .nonArray
      = .error (.typeError "Components must be list or numpy array") := by
  refine ⟨?_, ?_, rfl⟩ <;> simp [stressTensorInit, hn, hm, hmk]

/-- C7, witness: the construction-error theorem applied to a concrete
5-element vector and a concrete 2×2 matrix. -/
theorem C7_construction_error_witness :
    ((5 ≠ 6) ∧ (2 ≠ 6) ∧ ¬(2 = 3 ∧ 2 = 3)) ∧
    (stressTensorInit (.array (.d1 5 ![1, 2, 3, 4, 5]))
        = .error (.valueError "Components must be either a 6-element vector or 3x3 matrix") ∧
      stressTensorInit (.array (.d2 2 2 fun _ _ => 0))
        = .error (.valueError "Components must be either a 6-element vector or 3x3 matrix") ∧
      stressTensorInit .nonArray
        = .error (.typeError "Components must be list or numpy array")) :=
  ⟨⟨by decide, by decide, by decide⟩,
    C7_construction_error 5 ![1, 2, 3, 4, 5] 2 2 (fun _ _ => 0)
      (by decide) (by decide) (by decide)⟩

/-- C9: with `inplace=False` both rotation methods leave the receiver's
components unchanged and return a fresh instance holding the rotated
components; with `inplace=True` they overwrite the receiver's components
with the rotated ones and return the receiver itself. -/
theorem C9_inplace_semantics (M R : Mat3) (tx ty tz : ℝ) :
    ((rotate_by_matrix M R false).receiver = M ∧
      (rotate_by_matrix M R false).same_instance = false ∧
      (rotate_by_matrix M R false).result = R * M * R.transpose) ∧
    ((rotate_by_matrix M R true).receiver = R * M * R.transpose ∧
      (rotate_by_matrix M R true).same_instance = true ∧
      (rotate_by_matrix M R true).result = R * M * R.transpose) ∧
    ((rotate_by_euler_angles M tx ty tz false).receiver = M ∧
      (rotate_by_euler_angles M tx ty tz false).same_instance = false ∧
      (rotate_by_euler_angles M tx ty tz false).result
        = eulerRz tz * eulerRy ty * eulerRx tx * M
            * (eulerRz tz * eulerRy ty * eulerRx tx).transpose) ∧
    ((rotate_by_euler_angles M tx ty tz true).receiver
        = eulerRz tz * eulerRy ty * eulerRx tx * M
            * (eulerRz tz * eulerRy ty * eulerRx tx).transpose ∧
      (rotate_by_euler_angles M tx ty tz true).same_instance = true ∧
      (rotate_by_euler_angles M tx ty tz true).result
        = eulerRz tz * eulerRy ty * eulerRx tx * M
            * (eulerRz tz * eulerRy ty * eulerRx tx).transpose) :=
  ⟨⟨rfl, rfl, rfl⟩, ⟨rfl, rfl, rfl⟩, ⟨rfl, rfl, rfl⟩, rfl, rfl, rfl⟩

/-! The `TimeSeriesStressTensor` class of `time_series_stress.py`. -/

/-- A timestamp-indexed store of six-vector rows, modelling the pandas
DataFrame of `TimeSeriesStressTensor` (timestamps are modelled by naturals;
rows are kept in insertion order, and assigning to an existing key
overwrites its row, as `self.data.loc[timestamp] = vector` does). -/
structure TimeSeriesST where
  data : List (ℕ × (Fin 6 → ℝ))

/-- The empty series built by `TimeSeriesStressTensor.__init__`. -/
def emptySeries : TimeSeriesST := ⟨[]⟩

/-- The six-vector extracted from a components matrix by `add_tensor`:
`[c[0,0], c[1,1], c[2,2], c[0,1], c[1,2], c[0,2]]`. -/
def sixVectorOf (c : Mat3) : Fin 6 → ℝ :=
  ![c 0 0, c 1 1, c 2 2, c 0 1, c 1 2, c 0 2]

/-- Embedding of `add_tensor(tensor, timestamp)`: stores the six-vector row
at the timestamp, overwriting the row if the key already exists and
appending a new row otherwise. -/
def add_tensor (ts : TimeSeriesST) (c : Mat3) (t : ℕ) : TimeSeriesST :=
  if (ts.data.lookup t).isSome then
    ⟨ts.data.map fun p => if p.1 = t then (t, sixVectorOf c) else p⟩
  else
    ⟨ts.data ++ [(t, sixVectorOf c)]⟩

/-- Embedding of `get_tensor(timestamp)`: if the timestamp is absent it
raises `KeyError("No data for specified timestamp")`, else it reconstructs a
`StressTensor` from the stored row via the six-vector constructor branch.
The second component is the state of the series after the call, which a
lookup never modifies. -/
def get_tensor (ts : TimeSeriesST) (t : ℕ) : Except PyErr Mat3 × TimeSeriesST :=
  match ts.data.lookup t with
  | some row => (.ok (ofVec6 row), ts)
  | none => (.error (.keyError "No data for specified timestamp"), ts)

/-- Helper: overwriting the row at a stored key makes lookup return the new
row. -/
lemma lookup_overwrite (l : List (ℕ × (Fin 6 → ℝ))) (t : ℕ) (row : Fin 6 → ℝ)
    (h : (l.lookup t).isSome) :
    (l.map fun p => if p.1 = t then (t, row) else p).lookup t = some row := by
  induction l with
  | nil => simp [List.lookup] at h
  | cons p l ih =>
      simp only [List.map_cons]
      by_cases hp : p.1 = t
      · rw [if_pos hp]
        simp [List.lookup]
      · rw [if_neg hp]
        have hbeq : (t == p.1) = false := beq_eq_false_iff_ne.mpr (Ne.symm hp)
        simp only [List.lookup, hbeq] at h ⊢
        exact ih h

/-- Helper: appending a row at a fresh key makes lookup return it. -/
lemma lookup_append_fresh (l : List (ℕ × (Fin 6 → ℝ))) (t : ℕ) (row : Fin 6 → ℝ)
    (h : l.lookup t = none) :
    (l ++ [(t, row)]).lookup t = some row := by
  induction l with
  | nil => simp [List.lookup]
  | cons p l ih =>
      by_cases hp : p.1 = t
      · have hbeq : (t == p.1) = true := beq_iff_eq.mpr hp.symm
        simp only [List.lookup, hbeq] at h
        exact absurd h (by simp)
      · have hbeq : (t == p.1) = false := beq_eq_false_iff_ne.mpr (Ne.symm hp)
        simp only [List.lookup, hbeq] at h
        simpa [List.cons_append, List.lookup, hbeq] using ih h

/-- Helper: looking up the timestamp just written by `add_tensor` returns
the stored six-vector. -/
lemma lookup_add_tensor (ts : TimeSeriesST) (c : Mat3) (t : ℕ) :
    ((add_tensor ts c t).data.lookup t) = some (sixVectorOf c) := by
  unfold add_tensor
  by_cases h : (ts.data.lookup t).isSome
  · simpa [h] using lookup_overwrite ts.data t (sixVectorOf c) h
  · have hnone : ts.data.lookup t = none := by
      cases hcase : ts.data.lookup t
      · rfl
      · simp [hcase] at h
    simpa [h] using lookup_append_fresh ts.data t (sixVectorOf c) hnone

/-- Helper: the six-vector round trip reproduces a symmetric matrix. -/
lemma ofVec6_sixVectorOf {M : Mat3} (hM : M.transpose = M) :
    ofVec6 (sixVectorOf M) = M := by
  have hsym : ∀ i j, M j i = M i j := fun i j => congrFun (congrFun hM i) j
  ext i j
  fin_cases i <;> fin_cases j <;>
    simp only [ofVec6, sixToMat, sixVectorOf, Matrix.cons_val', Matrix.cons_val_zero,
      Matrix.cons_val_one, Matrix.head_cons, Matrix.head_fin_const, Matrix.empty_val',
      Matrix.cons_val_fin_one, Matrix.of_apply] <;>
    first
      | rfl
      | exact hsym _ _

/-- C5: for every symmetric 3×3 matrix, constructing components from its
six-vector form reproduces the matrix exactly, and a tensor added to a time
series via `add_tensor` is reconstructed exactly by `get_tensor` at the same
timestamp. -/
theorem C5_roundtrip (M : Mat3) (ts : TimeSeriesST) (t : ℕ) (hM : M.transpose = M) :
    ofVec6 (sixVectorOf M) = M ∧
    (get_tensor (add_tensor ts M t) t).1 = .ok M := by
  refine ⟨ofVec6_sixVectorOf hM, ?_⟩
  unfold get_tensor
  rw [lookup_add_tensor ts M t]
  simp [ofVec6_sixVectorOf hM]

/-- C5, witness: the round trip at the identity matrix and an empty series. -/
theorem C5_roundtrip_witness :
    ((1 : Mat3).transpose = 1) ∧
    (ofVec6 (sixVectorOf 1) = 1 ∧
      (get_tensor (add_tensor emptySeries 1 0) 0).1 = .ok 1) :=
  ⟨Matrix.transpose_one, C5_roundtrip 1 emptySeries 0 Matrix.transpose_one⟩

/-- C8, counterexample: the error raised on an empty series is
`KeyError("No data for specified timestamp")` with a capital `N`, so it does
not carry the exact message "no data for specified timestamp" stated in the
claim. -/
theorem C8_counterexample :
    (get_tensor emptySeries 0).1
      ≠ .error (.keyError "no data for specified timestamp") := by
  intro h
  rw [show (get_tensor emptySeries 0).1
      = .error (.keyError "No data for specified timestamp") from rfl] at h
  have hinj : PyErr.keyError "No data for specified timestamp"
      = PyErr.keyError "no data for specified timestamp" := by injection h
  exact absurd hinj (by decide)

/-- C8, amended: `get_tensor` fails — with
`KeyError("No data for specified timestamp")`, a `LookupError`-class signal
(message capitalised, unlike the claim's quotation) — exactly when the
timestamp is absent from the stored index; on the empty series it fails for
every timestamp; and the series state is unchanged by the call. -/
theorem C8_lookup_error (ts : TimeSeriesST) (t : ℕ) :
    ((get_tensor ts t).1 = .error (.keyError "No data for specified timestamp")
        ↔ ts.data.lookup t = none) ∧
    (get_tensor ts t).2 = ts ∧
    (get_tensor emptySeries t).1
      = .error (.keyError "No data for specified timestamp") := by
  refine ⟨?_, ?_, rfl⟩
  · cases hcase : ts.data.lookup t <;> simp [get_tensor, hcase]
  · cases hcase : ts.data.lookup t <;> simp [get_tensor, hcase]

/-! Eigenvalue model.  `np.linalg.eigh` reads only the lower triangle of its
argument (UPLO='L' is the default) and returns the eigenvalues of the
corresponding symmetric matrix in ascending order; `tresca` indexes that
ascending list. -/

open Polynomial

/-- The symmetric matrix determined by the lower triangle of `M`, which is
what `np.linalg.eigh` diagonalises. -/
def lowerSym (M : Mat3) : Mat3 :=
  Matrix.of fun i j => if (j : ℕ) ≤ (i : ℕ) then M i j else M j i

/-- The lower-triangle symmetrisation is Hermitian (symmetric, over ℝ). -/
lemma lowerSym_isHermitian (M : Mat3) : (lowerSym M).IsHermitian := by
  ext i j
  simp only [Matrix.conjTranspose_apply, lowerSym, Matrix.of_apply, star_trivial]
  by_cases h1 : (i : ℕ) ≤ (j : ℕ) <;> by_cases h2 : (j : ℕ) ≤ (i : ℕ)
  · have hij : i = j := Fin.ext (le_antisymm h1 h2)
    subst hij; simp
  · rw [if_pos h1, if_neg h2]
  · rw [if_neg h1, if_pos h2]
  · omega

/-- On a symmetric matrix the lower-triangle symmetrisation is the
identity. -/
lemma lowerSym_eq_self {M : Mat3} (hM : M.transpose = M) : lowerSym M = M := by
  have hsym : ∀ i j, M j i = M i j := fun i j => congrFun (congrFun hM i) j
  ext i j
  simp only [lowerSym, Matrix.of_apply]
  split
  · rfl
  · exact hsym i j

/-- The multiset of eigenvalues `np.linalg.eigh` computes for `M`. -/
noncomputable def eighVals (M : Mat3) : Multiset ℝ :=
  Finset.univ.val.map (lowerSym_isHermitian M).eigenvalues

/-- The ascending list of eigenvalues returned by `np.linalg.eigh`, i.e. the
model of the first return value of the `principal_stresses` property of
`StressTensor`. -/
noncomputable def eighList (M : Mat3) : List ℝ :=
  (eighVals M).sort (· ≤ ·)

/-- Embedding of the `tresca` property: the maximum of the three pairwise
absolute differences of the principal stresses. -/
noncomputable def tresca (M : Mat3) : ℝ :=
  max (|(eighList M).getD 0 0 - (eighList M).getD 1 0|)
    (max (|(eighList M).getD 1 0 - (eighList M).getD 2 0|)
      (|(eighList M).getD 2 0 - (eighList M).getD 0 0|))

/-- Embedding of the `signed_tresca` property:
`np.sign(hydrostatic) * tresca`. -/
noncomputable def signed_tresca (M : Mat3) : ℝ :=
  Real.sign (hydrostatic M) * tresca M

/-- Helper: the characteristic polynomial is invariant under conjugation by
a pair of mutually inverse matrices. -/
lemma charpoly_conj (A P Q : Mat3) (hPQ : P * Q = 1) :
    (P * A * Q).charpoly = A.charpoly := by
  have hmapPQ : P.map (C : ℝ →+* ℝ[X]) * Q.map (C : ℝ →+* ℝ[X]) = 1 := by
    rw [← Matrix.map_mul, hPQ, Matrix.map_one _ (map_zero _) (map_one _)]
  have hcomm : P.map (C : ℝ →+* ℝ[X]) * Matrix.scalar (Fin 3) (X : ℝ[X])
      = Matrix.scalar (Fin 3) (X : ℝ[X]) * P.map (C : ℝ →+* ℝ[X]) :=
    ((Matrix.scalar_commute (X : ℝ[X]) (fun r => Commute.all _ r)
      (P.map (C : ℝ →+* ℝ[X]))).symm).eq
  have hchar : Matrix.charmatrix (P * A * Q)
      = P.map (C : ℝ →+* ℝ[X]) * Matrix.charmatrix A * Q.map (C : ℝ →+* ℝ[X]) := by
    unfold Matrix.charmatrix
    rw [mul_sub, sub_mul]
    congr 1
    · rw [hcomm, Matrix.mul_assoc, hmapPQ, Matrix.mul_one]
    · rw [RingHom.mapMatrix_apply, RingHom.mapMatrix_apply, Matrix.map_mul, Matrix.map_mul]
  unfold Matrix.charpoly
  rw [hchar, Matrix.det_mul, Matrix.det_mul]
  have hdet : (P.map (C : ℝ →+* ℝ[X])).det * (Q.map (C : ℝ →+* ℝ[X])).det = 1 := by
    rw [← Matrix.det_mul, hmapPQ, Matrix.det_one]
  linear_combination (Matrix.charmatrix A).det * hdet

/-- Helper: the characteristic polynomial of a diagonal matrix. -/
lemma charpoly_diag (d : Fin 3 → ℝ) :
    (Matrix.diagonal d).charpoly = ∏ i, (X - C (d i)) := by
  have h : Matrix.charmatrix (Matrix.diagonal d)
      = Matrix.diagonal fun i => (X : ℝ[X]) - C (d i) := by
    ext i j
    by_cases hij : i = j
    · subst hij
      simp
    · simp [Matrix.charmatrix_apply_ne _ _ _ hij, Matrix.diagonal_apply_ne _ hij]
  unfold Matrix.charpoly
  rw [h, Matrix.det_diagonal]

/-- Helper: the characteristic polynomial of a Hermitian real matrix is the
product of the linear factors at its eigenvalues. -/
lemma charpoly_eq_prod_eigenvalues {A : Mat3} (hA : A.IsHermitian) :
    A.charpoly = ∏ i, (X - C (hA.eigenvalues i)) := by
  have hmem := unitary.mem_iff.mp (hA.eigenvectorUnitary).2
  conv_lhs => rw [hA.spectral_theorem]
  rw [charpoly_conj _ _ _ hmem.2, RCLike.ofReal_real_eq_id, Function.id_comp,
    charpoly_diag]

/-- Helper: the roots of a product of distinct-indexed linear factors. -/
lemma prod_X_sub_C_roots (f : Fin 3 → ℝ) :
    (∏ i, (X - C (f i))).roots = Finset.univ.val.map f := by
  have h : (∏ i, (X - C (f i)))
      = ((Finset.univ.val.map f).map fun a => X - C a).prod := by
    rw [Multiset.map_map]
    rfl
  rw [h, Polynomial.roots_multiset_prod_X_sub_C]

/-- Helper: Hermitian matrices with the same characteristic polynomial have
the same multiset of eigenvalues. -/
lemma eigenvalues_multiset_eq {A B : Mat3} (hA : A.IsHermitian) (hB : B.IsHermitian)
    (h : A.charpoly = B.charpoly) :
    Finset.univ.val.map hA.eigenvalues = Finset.univ.val.map hB.eigenvalues := by
  have hprod : (∏ i, (X - C (hA.eigenvalues i))) = ∏ i, (X - C (hB.eigenvalues i)) := by
    rw [← charpoly_eq_prod_eigenvalues hA, ← charpoly_eq_prod_eigenvalues hB, h]
  have hroots := congrArg Polynomial.roots hprod
  rwa [prod_X_sub_C_roots, prod_X_sub_C_roots] at hroots

/-- Helper: the eigenvalue multiset is invariant under the congruence
transform by a matrix with orthonormal rows. -/
lemma eighVals_conj {M R : Mat3} (hM : M.transpose = M) (hR : R * R.transpose = 1) :
    eighVals (R * M * R.transpose) = eighVals M := by
  unfold eighVals
  refine eigenvalues_multiset_eq _ _ ?_
  rw [lowerSym_eq_self (congruence_transpose R hM), lowerSym_eq_self hM]
  exact charpoly_conj M R R.transpose hR

/-- Helper: the ascending eigenvalue list is invariant under the congruence
transform. -/
lemma eighList_conj {M R : Mat3} (hM : M.transpose = M) (hR : R * R.transpose = 1) :
    eighList (R * M * R.transpose) = eighList M := by
  unfold eighList
  rw [eighVals_conj hM hR]

/-- Helper: the hydrostatic stress is a third of the trace. -/
lemma hydrostatic_eq_trace (M : Mat3) : hydrostatic M = Matrix.trace M / 3 := by
  simp [hydrostatic, Matrix.trace, Matrix.diag_apply, Fin.sum_univ_three]

/-- Helper: the trace is invariant under the congruence transform. -/
lemma trace_conj {M R : Mat3} (hR : R * R.transpose = 1) :
    Matrix.trace (R * M * R.transpose) = Matrix.trace M := by
  rw [Matrix.trace_mul_comm (R * M) R.transpose, ← Matrix.mul_assoc,
    Matrix.mul_eq_one_comm.mp hR, Matrix.one_mul]

/-- Helper: the trace of the square is invariant under the congruence
transform. -/
lemma trace_sq_conj {M R : Mat3} (hR : R * R.transpose = 1) :
    Matrix.trace (R * M * R.transpose * (R * M * R.transpose))
      = Matrix.trace (M * M) := by
  have hR' : R.transpose * R = 1 := Matrix.mul_eq_one_comm.mp hR
  have hcollapse : R * M * R.transpose * (R * M * R.transpose)
      = R * (M * M) * R.transpose := by
    calc R * M * R.transpose * (R * M * R.transpose)
        = R * (M * (R.transpose * R * (M * R.transpose))) := by
          simp only [Matrix.mul_assoc]
      _ = R * (M * (M * R.transpose)) := by rw [hR', Matrix.one_mul]
      _ = R * (M * M) * R.transpose := by simp only [Matrix.mul_assoc]
  rw [hcollapse, trace_conj hR]

/-- Helper: for a symmetric matrix the von Mises radicand is a polynomial in
the trace and the trace of the square. -/
lemma vm_radicand_eq (M : Mat3) (hM : M.transpose = M) :
    0.5 * ((M 0 0 - M 1 1) ^ 2 + (M 1 1 - M 2 2) ^ 2 + (M 2 2 - M 0 0) ^ 2
      + 6 * ((M 0 1) ^ 2 + (M 1 2) ^ 2 + (M 0 2) ^ 2))
    = 1.5 * Matrix.trace (M * M) - 0.5 * (Matrix.trace M) ^ 2 := by
  have h10 : M 1 0 = M 0 1 := (congrFun (congrFun hM 1) 0).symm
  have h20 : M 2 0 = M 0 2 := (congrFun (congrFun hM 2) 0).symm
  have h21 : M 2 1 = M 1 2 := (congrFun (congrFun hM 2) 1).symm
  simp only [Matrix.trace, Matrix.diag_apply, Matrix.mul_apply, Fin.sum_univ_three]
  rw [h10, h20, h21]
  ring

/-- Helper: von Mises stress is invariant under the congruence transform by
a matrix with orthonormal rows. -/
lemma von_mises_conj {M R : Mat3} (hM : M.transpose = M) (hR : R * R.transpose = 1) :
    von_mises (R * M * R.transpose) = von_mises M := by
  unfold von_mises
  congr 1
  rw [vm_radicand_eq _ (congruence_transpose R hM), vm_radicand_eq M hM,
    trace_sq_conj hR, trace_conj hR]

/-- Helper: hydrostatic stress is invariant under the congruence transform. -/
lemma hydrostatic_conj {M R : Mat3} (hR : R * R.transpose = 1) :
    hydrostatic (R * M * R.transpose) = hydrostatic M := by
  rw [hydrostatic_eq_trace, hydrostatic_eq_trace, trace_conj hR]

/-- Helper: the elementary x-rotation has orthonormal rows. -/
lemma eulerRx_orthogonal (t : ℝ) : eulerRx t * (eulerRx t).transpose = 1 := by
  ext i j
  fin_cases i <;> fin_cases j <;>
    simp [eulerRx, Matrix.mul_apply, Fin.sum_univ_three, Matrix.one_apply,
      Matrix.transpose_apply, Matrix.vecHead, Matrix.vecTail] <;>
    first
      | linear_combination Real.sin_sq_add_cos_sq t
      | ring1

/-- Helper: the elementary y-rotation has orthonormal rows. -/
lemma eulerRy_orthogonal (t : ℝ) : eulerRy t * (eulerRy t).transpose = 1 := by
  ext i j
  fin_cases i <;> fin_cases j <;>
    simp [eulerRy, Matrix.mul_apply, Fin.sum_univ_three, Matrix.one_apply,
      Matrix.transpose_apply, Matrix.vecHead, Matrix.vecTail] <;>
    first
      | linear_combination Real.sin_sq_add_cos_sq t
      | ring1

/-- Helper: the elementary z-rotation has orthonormal rows. -/
lemma eulerRz_orthogonal (t : ℝ) : eulerRz t * (eulerRz t).transpose = 1 := by
  ext i j
  fin_cases i <;> fin_cases j <;>
    simp [eulerRz, Matrix.mul_apply, Fin.sum_univ_three, Matrix.one_apply,
      Matrix.transpose_apply, Matrix.vecHead, Matrix.vecTail] <;>
    first
      | linear_combination Real.sin_sq_add_cos_sq t
      | ring1

/-- Helper: a product of matrices with orthonormal rows has orthonormal
rows. -/
lemma orth_mul {A B : Mat3} (hA : A * A.transpose = 1) (hB : B * B.transpose = 1) :
    A * B * (A * B).transpose = 1 := by
  rw [Matrix.transpose_mul]
  calc A * B * (B.transpose * A.transpose)
      = A * (B * B.transpose) * A.transpose := by simp only [Matrix.mul_assoc]
    _ = 1 := by rw [hB, Matrix.mul_one, hA]

/-- Helper: the Euler rotation matrix `Rz * Ry * Rx` has orthonormal rows. -/
lemma euler_orthogonal (tx ty tz : ℝ) :
    eulerRz tz * eulerRy ty * eulerRx tx
      * (eulerRz tz * eulerRy ty * eulerRx tx).transpose = 1 :=
  orth_mul (orth_mul (eulerRz_orthogonal tz) (eulerRy_orthogonal ty))
    (eulerRx_orthogonal tx)

/-- Helper: the components returned by `rotate_by_matrix` are the congruence
transform, for either `inplace` mode. -/
lemma rotate_by_matrix_result (M R : Mat3) (b : Bool) :
    (rotate_by_matrix M R b).result = R * M * R.transpose := by
  cases b <;> rfl

/-- Helper: the components returned by `rotate_by_euler_angles` are the
congruence transform by `Rz * Ry * Rx`, for either `inplace` mode. -/
lemma rotate_by_euler_result (M : Mat3) (tx ty tz : ℝ) (b : Bool) :
    (rotate_by_euler_angles M tx ty tz b).result
      = eulerRz tz * eulerRy ty * eulerRx tx * M
          * (eulerRz tz * eulerRy ty * eulerRx tx).transpose := by
  cases b <;> rfl

/-- C6: for a symmetric tensor, rotating by a matrix with orthonormal rows
(`rotate_by_matrix`) or by any Euler angles (`rotate_by_euler_angles`), in
either `inplace` mode, leaves the ascending eigenvalue list (the principal
stresses) and the von_mises, tresca, signed_von_mises and signed_tresca
values of the resulting tensor exactly equal to those of the original. -/
theorem C6_rotation_invariance (M R : Mat3) (tx ty tz : ℝ) (b b2 : Bool)
    (hM : M.transpose = M) (hR : R * R.transpose = 1) :
    (eighList (rotate_by_matrix M R b).result = eighList M ∧
      von_mises (rotate_by_matrix M R b).result = von_mises M ∧
      tresca (rotate_by_matrix M R b).result = tresca M ∧
      signed_von_mises (rotate_by_matrix M R b).result = signed_von_mises M ∧
      signed_tresca (rotate_by_matrix M R b).result = signed_tresca M) ∧
    (eighList (rotate_by_euler_angles M tx ty tz b2).result = eighList M ∧
      von_mises (rotate_by_euler_angles M tx ty tz b2).result = von_mises M ∧
      tresca (rotate_by_euler_angles M tx ty tz b2).result = tresca M ∧
      signed_von_mises (rotate_by_euler_angles M tx ty tz b2).result
        = signed_von_mises M ∧
      signed_tresca (rotate_by_euler_angles M tx ty tz b2).result
        = signed_tresca M) := by
  have main : ∀ Q : Mat3, Q * Q.transpose = 1 →
      eighList (Q * M * Q.transpose) = eighList M ∧
      von_mises (Q * M * Q.transpose) = von_mises M ∧
      tresca (Q * M * Q.transpose) = tresca M ∧
      signed_von_mises (Q * M * Q.transpose) = signed_von_mises M ∧
      signed_tresca (Q * M * Q.transpose) = signed_tresca M := by
    intro Q hQ
    have hlist := eighList_conj hM hQ
    have hvm := von_mises_conj hM hQ
    have htr : tresca (Q * M * Q.transpose) = tresca M := by
      unfold tresca
      rw [hlist]
    have hhy := hydrostatic_conj (M := M) hQ
    refine ⟨hlist, hvm, htr, ?_, ?_⟩
    · unfold signed_von_mises
      rw [hhy, hvm]
    · unfold signed_tresca
      rw [hhy, htr]
  constructor
  · rw [rotate_by_matrix_result M R b]
    exact main R hR
  · rw [rotate_by_euler_result M tx ty tz b2]
    exact main _ (euler_orthogonal tx ty tz)

/-- C6, witness: the invariance theorem applied to the identity tensor and
the identity rotation. -/
theorem C6_rotation_invariance_witness :
    ((1 : Mat3).transpose = 1 ∧ (1 : Mat3) * (1 : Mat3).transpose = 1) ∧
    ((eighList (rotate_by_matrix 1 1 true).result = eighList 1 ∧
        von_mises (rotate_by_matrix 1 1 true).result = von_mises 1 ∧
        tresca (rotate_by_matrix 1 1 true).result = tresca 1 ∧
        signed_von_mises (rotate_by_matrix 1 1 true).result = signed_von_mises 1 ∧
        signed_tresca (rotate_by_matrix 1 1 true).result = signed_tresca 1) ∧
      (eighList (rotate_by_euler_angles 1 0 0 0 true).result = eighList 1 ∧
        von_mises (rotate_by_euler_angles 1 0 0 0 true).result = von_mises 1 ∧
        tresca (rotate_by_euler_angles 1 0 0 0 true).result = tresca 1 ∧
        signed_von_mises (rotate_by_euler_angles 1 0 0 0 true).result
          = signed_von_mises 1 ∧
        signed_tresca (rotate_by_euler_angles 1 0 0 0 true).result
          = signed_tresca 1)) :=
  ⟨⟨Matrix.transpose_one, by rw [Matrix.transpose_one, Matrix.mul_one]⟩,
    C6_rotation_invariance 1 1 0 0 0 true true Matrix.transpose_one
      (by rw [Matrix.transpose_one, Matrix.mul_one])⟩

/-- C10: whenever the hydrostatic stress is exactly zero, the sign factor
`np.sign(0) = 0` makes both signed measures zero, regardless of the values
of von_mises and tresca. -/
theorem C10_signed_zero_hydrostatic (M : Mat3) (h : hydrostatic M = 0) :
    signed_von_mises M = 0 ∧ signed_tresca M = 0 := by
  unfold signed_von_mises signed_tresca
  rw [h, Real.sign_zero, zero_mul, zero_mul]
  exact ⟨rfl, rfl⟩

/-- A concrete traceless stress state with strictly positive von Mises
stress. -/
def zeroHydroInput : Mat3 := !![1, 0, 0; 0, -1, 0; 0, 0, 0]

/-- C10, witness: at `diag(1, -1, 0)` the hydrostatic stress vanishes, the
von Mises stress is strictly positive, and both signed measures are zero. -/
theorem C10_signed_zero_hydrostatic_witness :
    hydrostatic zeroHydroInput = 0 ∧
    0 < von_mises zeroHydroInput ∧
    signed_von_mises zeroHydroInput = 0 ∧
    signed_tresca zeroHydroInput = 0 := by
  have h0 : hydrostatic zeroHydroInput = 0 := by
    norm_num [hydrostatic, zeroHydroInput, Matrix.vecHead, Matrix.vecTail]
  obtain ⟨h1, h2⟩ := C10_signed_zero_hydrostatic zeroHydroInput h0
  refine ⟨h0, ?_, h1, h2⟩
  unfold von_mises
  apply Real.sqrt_pos.mpr
  norm_num [zeroHydroInput, Matrix.vecHead, Matrix.vecTail]

end StressRel
